import Mathlib

/-!
Verification development for the beacon-chain consensus core of this
repository.  The definitions below are a shallow embedding of the source
files:

* `packages/lodestar/src/chain` — the `BeaconChain` orchestrator
  (`receiveBlock`, `receiveAttestation`, `runStateTransition`,
  `applyForkChoiceRule`, `isValidBlock`);
* `packages/state-transition/src/epoch/processRewardsAndPenalties.ts`;
* `packages/lodestar/src/chain/factory/attestation` (`assembleAttestation`).

Machine integers of the source (JS numbers / BN) are modelled as `Nat`;
SSZ hash-tree roots are modelled by an injective pairing encoding; the
key/value database is modelled as an association list together with a
chronological log of the individual write operations the orchestrator
issues.
-/

namespace Lodestar

/-- A 32-byte root, modelled as a natural number. -/
abbrev Root := Nat

/-- Checkpoint `(epoch, root)` as in the beacon-chain types. -/
structure Checkpoint where
  epoch : Nat
  root : Root
  deriving DecidableEq, Repr

/-- Validator record (only the fields the embedded code reads). -/
structure Validator where
  effectiveBalance : Nat
  deriving DecidableEq, Repr

/-- `BeaconState` restricted to the fields read or written by the embedded
chain code (`packages/lodestar/src/chain`). -/
structure BeaconState where
  slot : Nat
  genesisTime : Nat
  currentJustifiedCheckpoint : Checkpoint
  finalizedCheckpoint : Checkpoint
  validators : List Validator
  balances : List Nat
  eth1DepositIndex : Nat
  eth1DepositCount : Nat
  deriving DecidableEq, Repr

/-- `BeaconBlock` restricted to the fields the embedded chain code reads;
`bodyTag` stands for the block body (it only feeds the hash). -/
structure BeaconBlock where
  slot : Nat
  parentRoot : Root
  stateRoot : Root
  bodyTag : Nat
  deriving DecidableEq, Repr

/-- Network constants read by the embedded chain code. -/
structure IBeaconConfig where
  SECONDS_PER_SLOT : Nat
  SLOTS_PER_EPOCH : Nat
  deriving DecidableEq, Repr

/-- `GENESIS_SLOT` from `constants`. -/
def GENESIS_SLOT : Nat := 0

/-- Injective encoding of a list of naturals, used in the state hash. -/
def encList : List Nat → Nat
  | [] => 0
  | a :: l => Nat.pair a (encList l) + 1

/-- `hashTreeRoot` of a block.  The SSZ Merkleization is external to the
repository; it is modelled as an injective encoding of the block fields. -/
def htrBlock (b : BeaconBlock) : Root :=
  Nat.pair (Nat.pair b.slot b.parentRoot) (Nat.pair b.stateRoot b.bodyTag)

/-- `hashTreeRoot` of a state, modelled as an injective encoding. -/
def htrState (s : BeaconState) : Root :=
  Nat.pair s.slot (Nat.pair s.genesisTime
    (Nat.pair (Nat.pair s.currentJustifiedCheckpoint.epoch s.currentJustifiedCheckpoint.root)
      (Nat.pair (Nat.pair s.finalizedCheckpoint.epoch s.finalizedCheckpoint.root)
        (Nat.pair (encList s.balances)
          (Nat.pair (encList (s.validators.map Validator.effectiveBalance))
            (Nat.pair s.eth1DepositIndex s.eth1DepositCount))))))

/-- `computeEpochOfSlot` from `stateTransition/util`. -/
def computeEpochOfSlot (config : IBeaconConfig) (slot : Nat) : Nat :=
  slot / config.SLOTS_PER_EPOCH

/-- Attestation data (only the fields the embedded code reads). -/
structure AttestationData where
  beaconBlockRoot : Root
  tag : Nat
  deriving DecidableEq, Repr

/-- Attestation: data plus the aggregation bit-field. -/
structure Attestation where
  data : AttestationData
  aggregationBits : List Bool
  deriving DecidableEq, Repr

/-- Errors of the modelled state-transition engine. -/
inductive TransitionError where
  | transitionFailed
  | stateRootMismatch
  deriving DecidableEq, Repr

/-- Events emitted by the chain (the event vocabulary of the spec; the
`headChanged` constructor exists so that its absence from a run is a
statement about the code, not about the model). -/
inductive Event where
  | processedAttestation
  | processedBlock
  | warnBadBlock (e : TransitionError)
  | headChanged (newHead oldHead : Root) (depth : Nat)
  deriving DecidableEq, Repr

/-- One database write issued by the chain code.  Each constructor is one
call on the `IBeaconDb` interface; the interface offers no batch
primitive, so every write is its own log entry. -/
inductive PersistOp where
  | setBlock (root : Root)
  | setState (root : Root)
  | setBadBlockRoot (root : Root)
  | setJustifiedBlockRoot (root : Root)
  | setJustifiedStateRoot (root : Root)
  | setFinalizedBlockRoot (root : Root)
  | setFinalizedStateRoot (root : Root)
  | setMerkleTree (index : Nat)
  | setChainHeadRoots (blockRoot stateRoot : Root)
  deriving DecidableEq, Repr

/-- The observable state of the `BeaconChain` object together with its
database and fork-choice store. -/
structure ChainState where
  latestState : BeaconState
  dbBlocks : List (Root × BeaconBlock)
  dbStates : List (Root × BeaconState)
  dbBadBlocks : List Root
  dbChainHeadRoot : Root
  dbChainHeadStateRoot : Root
  dbJustifiedBlockRoot : Root
  dbJustifiedStateRoot : Root
  dbJustifiedEpoch : Nat
  dbFinalizedBlockRoot : Root
  dbFinalizedStateRoot : Root
  dbFinalizedEpoch : Nat
  forkBlocks : List (Nat × Root × Root)
  forkVotes : List (Root × Nat × Nat)
  forkJustified : Root
  forkFinalized : Root
  forkHead : Root
  opPoolOps : Nat
  persistLog : List PersistOp
  events : List Event
  transitionCalls : Nat
  aborted : Bool
  deriving DecidableEq, Repr

/-- Key lookup in the modelled key/value store (newest entry first). -/
def dbGet {α : Type} (l : List (Root × α)) (k : Root) : Option α :=
  (l.find? (fun p => p.1 = k)).map Prod.snd

/-- The inner pure state transition `(pre, block) → post`, which lives in
`packages/lodestar/src/chain/stateTransition` and is not under `src/`.
Taken as a parameter ranging over all pure, fallible transition
functions, which is what the spec requires of it. -/
abbrev TransitionFn := BeaconState → BeaconBlock → Option BeaconState

/-- Modelled from the spec: `stateTransition(config, state, block,
verifyStateRoot)` is not under `src/`.  Per the spec it computes the
post-state and, when verification is requested, checks
`hash_tree_root(post) == block.stateRoot`, reporting `StateRootMismatch`
on disagreement. -/
def stateTransition (tf : TransitionFn) (state : BeaconState) (block : BeaconBlock)
    (verifyStateRoot : Bool) : Except TransitionError BeaconState :=
  match tf state block with
  | none => Except.error TransitionError.transitionFailed
  | some post =>
    if verifyStateRoot ∧ htrState post ≠ block.stateRoot then
      Except.error TransitionError.stateRootMismatch
    else Except.ok post

/-- Modelled from the spec: committee resolution (`getBeaconCommittee`,
not under `src/`).  The spec fixes only that it is a deterministic
function of the state and the attestation data; the claims under proof do
not depend on its composition. -/
def getBeaconCommittee (_config : IBeaconConfig) (state : BeaconState)
    (_data : AttestationData) : List Nat :=
  List.range state.validators.length

/-- `getAttestingIndices` from `stateTransition/util` (not under `src/`):
the committee members whose aggregation bit is set. -/
def getAttestingIndices (config : IBeaconConfig) (state : BeaconState)
    (data : AttestationData) (bits : List Bool) : List Nat :=
  ((getBeaconCommittee config state data).enum.filter
    (fun p => bits.getD p.1 false)).map Prod.snd

/-- Embeds `BeaconChain.receiveAttestation`: resolve the attesting
indices, read each one's entry of `state.balances`, and feed
`(blockRoot, validator, balance)` into the fork-choice store; finally
emit `processedAttestation`.  The source performs no further check and
has no rejection path. -/
def receiveAttestation (config : IBeaconConfig) (c : ChainState) (a : Attestation) :
    ChainState :=
  let validators := getAttestingIndices config c.latestState a.data a.aggregationBits
  let balances := validators.map (fun index => c.latestState.balances.getD index 0)
  { c with
    forkVotes := c.forkVotes ++
      (validators.zip balances).map (fun p => (a.data.beaconBlockRoot, p.1, p.2)),
    events := c.events ++ [Event.processedAttestation] }

/-- The justified-checkpoint update block of `runStateTransition`
(lines 207–215).  Returns the updated chain and `false` when a database
lookup failed (the JS promise rejects and the exception propagates). -/
def runJustifiedUpdate (c : ChainState) (blockRoot : Root) (newState : BeaconState)
    (preJustifiedEpoch : Nat) : ChainState × Bool :=
  if preJustifiedEpoch < newState.currentJustifiedCheckpoint.epoch then
    match dbGet c.dbBlocks newState.currentJustifiedCheckpoint.root with
    | none => ({ c with aborted := true }, false)
    | some justifiedBlock =>
      let c1 := { c with
        dbJustifiedBlockRoot := blockRoot,
        dbJustifiedEpoch := newState.currentJustifiedCheckpoint.epoch,
        persistLog := c.persistLog ++ [PersistOp.setJustifiedBlockRoot blockRoot] }
      match dbGet c1.dbStates justifiedBlock.stateRoot with
      | none => ({ c1 with aborted := true }, false)
      | some _justifiedState =>
        ({ c1 with
          dbJustifiedStateRoot := justifiedBlock.stateRoot,
          persistLog := c1.persistLog ++ [PersistOp.setJustifiedStateRoot justifiedBlock.stateRoot],
          forkJustified := blockRoot }, true)
  else (c, true)

/-- The finalized-checkpoint update block of `runStateTransition`
(lines 217–225), same shape as the justified one. -/
def runFinalizedUpdate (c : ChainState) (blockRoot : Root) (newState : BeaconState)
    (preFinalizedEpoch : Nat) : ChainState × Bool :=
  if preFinalizedEpoch < newState.finalizedCheckpoint.epoch then
    match dbGet c.dbBlocks newState.finalizedCheckpoint.root with
    | none => ({ c with aborted := true }, false)
    | some finalizedBlock =>
      let c1 := { c with
        dbFinalizedBlockRoot := blockRoot,
        dbFinalizedEpoch := newState.finalizedCheckpoint.epoch,
        persistLog := c.persistLog ++ [PersistOp.setFinalizedBlockRoot blockRoot] }
      match dbGet c1.dbStates finalizedBlock.stateRoot with
      | none => ({ c1 with aborted := true }, false)
      | some _finalizedState =>
        ({ c1 with
          dbFinalizedStateRoot := finalizedBlock.stateRoot,
          persistLog := c1.persistLog ++ [PersistOp.setFinalizedStateRoot finalizedBlock.stateRoot],
          forkFinalized := blockRoot }, true)
  else (c, true)

/-- Lines 194–201 of `runStateTransition` on the success path: the block
and the post-state are written (the post-state under the key
`block.stateRoot`), the block is added to fork-choice, and the deposit
merkle tree is updated (`updateDepositMerkleTree`, issued un-awaited by
the source and modelled as one merkle-tree write). -/
def okBase (c : ChainState) (block : BeaconBlock) (newState : BeaconState) : ChainState :=
  { c with
    transitionCalls := c.transitionCalls + 1,
    dbBlocks := (htrBlock block, block) :: c.dbBlocks,
    dbStates := (block.stateRoot, newState) :: c.dbStates,
    persistLog := c.persistLog
      ++ [PersistOp.setBlock (htrBlock block), PersistOp.setState block.stateRoot]
      ++ [PersistOp.setMerkleTree newState.eth1DepositIndex],
    forkBlocks := (block.slot, htrBlock block, block.parentRoot) :: c.forkBlocks }

/-- Embeds `BeaconChain.runStateTransition`.  On transition failure the
block root is recorded as bad and the function returns `none`
(`undefined` in the source).  On success, the writes of `okBase` happen
and — only when an epoch boundary was crossed — the justified / finalized
roots are updated under their strict-increase guards. -/
def runStateTransition (config : IBeaconConfig) (tf : TransitionFn) (c : ChainState)
    (block : BeaconBlock) : ChainState × Option BeaconState :=
  let state := c.latestState
  let preSlot := state.slot
  let preFinalizedEpoch := state.finalizedCheckpoint.epoch
  let preJustifiedEpoch := state.currentJustifiedCheckpoint.epoch
  match stateTransition tf state block true with
  | Except.error e =>
    let blockRoot := htrBlock block
    ({ c with
      transitionCalls := c.transitionCalls + 1,
      dbBadBlocks := blockRoot :: c.dbBadBlocks,
      persistLog := c.persistLog ++ [PersistOp.setBadBlockRoot blockRoot],
      events := c.events ++ [Event.warnBadBlock e] }, none)
  | Except.ok newState =>
    let blockRoot := htrBlock block
    let c2 := okBase c block newState
    if computeEpochOfSlot config preSlot < computeEpochOfSlot config newState.slot then
      match runJustifiedUpdate c2 blockRoot newState preJustifiedEpoch with
      | (c3, false) => (c3, none)
      | (c3, true) =>
        match runFinalizedUpdate c3 blockRoot newState preFinalizedEpoch with
        | (c4, false) => (c4, none)
        | (c4, true) => (c4, some newState)
    else (c2, some newState)

/-- Embeds `BeaconChain.isValidBlock`: the parent must be in the block
store, and the node's time must have reached the block's slot time. -/
def isValidBlock (config : IBeaconConfig) (state : BeaconState)
    (dbBlocks : List (Root × BeaconBlock)) (block : BeaconBlock) (now : Nat) : Bool :=
  if (dbGet dbBlocks block.parentRoot).isSome = false then false
  else if now < state.genesisTime + (block.slot - GENESIS_SLOT) * config.SECONDS_PER_SLOT then
    false
  else true

/-- Outcome of `receiveBlock`: the promise resolved, the initial
assertion failed, or an exception escaped mid-processing. -/
inductive ReceiveOutcome where
  | resolved
  | assertionFailed
  | errored
  deriving DecidableEq, Repr

/-- Embeds `BeaconChain.receiveBlock`: assert validity, run the state
transition, process block operations on the op pool, emit
`processedBlock`.  Note the source does not re-assign `latestState`. -/
def receiveBlock (config : IBeaconConfig) (tf : TransitionFn) (c : ChainState)
    (block : BeaconBlock) (now : Nat) : ChainState × ReceiveOutcome :=
  if isValidBlock config c.latestState c.dbBlocks block now then
    let r := runStateTransition config tf c block
    if r.1.aborted then (r.1, ReceiveOutcome.errored)
    else
      ({ r.1 with
        opPoolOps := r.1.opPoolOps + 1,
        events := r.1.events ++ [Event.processedBlock] }, ReceiveOutcome.resolved)
  else (c, ReceiveOutcome.assertionFailed)

/-- Embeds `BeaconChain.applyForkChoiceRule`.  `forkChoice.head()` is the
`forkHead` component of the store (the LMD-GHOST selection itself is not
under `src/`).  Note the source passes `currentRoot` — the previous head
root — as the first argument of `setChainHeadRoots`, and emits no
event. -/
def applyForkChoiceRule (c : ChainState) : ChainState :=
  let currentRoot := c.dbChainHeadRoot
  let headRoot := c.forkHead
  if currentRoot ≠ headRoot then
    match dbGet c.dbBlocks headRoot with
    | none => { c with aborted := true }
    | some block =>
      { c with
        dbChainHeadRoot := currentRoot,
        dbChainHeadStateRoot := block.stateRoot,
        persistLog := c.persistLog ++ [PersistOp.setChainHeadRoots currentRoot block.stateRoot] }
  else c

/-! ### Descendants of a block and the bad-block invariant (claim C3) -/

/-- `DescOf B C`: block `C` descends from block `B` through a chain of
`parentRoot = hashTreeRoot(parent)` links. -/
inductive DescOf (B : BeaconBlock) : BeaconBlock → Prop
  | child (C : BeaconBlock) : C.parentRoot = htrBlock B → DescOf B C
  | step (D C : BeaconBlock) : DescOf B D → C.parentRoot = htrBlock D → DescOf B C

/-- Invariant for a bad block `B`: its transition fails from the chain's
`latestState` (which `receiveBlock` never re-assigns), and neither `B`
nor any of its descendants is in the block store. -/
def BadBlockInv (tf : TransitionFn) (B : BeaconBlock) (c : ChainState) : Prop :=
  tf c.latestState B = none ∧
  dbGet c.dbBlocks (htrBlock B) = none ∧
  ∀ C : BeaconBlock, DescOf B C → dbGet c.dbBlocks (htrBlock C) = none

end Lodestar

namespace StateTransitionPkg

/-! ### `packages/state-transition/src/epoch/processRewardsAndPenalties.ts` -/

/-- `GENESIS_EPOCH` from `@lodestar/params`. -/
def GENESIS_EPOCH : Nat := 0

/-- One commit on the balances tree view: either a bulk rebuild of the
whole vector (`ssz.phase0.Balances.toViewDU`) or a single-leaf tree
mutation.  The source of this file never issues `setOne`; the
constructor exists so that its absence is a statement about the code. -/
inductive BalOp where
  | bulkRebuild (vals : List Nat)
  | setOne (i : Nat) (v : Nat)
  deriving DecidableEq, Repr

/-- The cached beacon state as read and written by
`processRewardsAndPenalties`: the balances vector
(`state.balances.getAll()`) plus the chronological log of tree commits
performed on `state.balances`. -/
structure CachedBeaconState where
  slot : Nat
  balancesList : List Nat
  balanceOps : List BalOp
  deriving DecidableEq, Repr

/-- The epoch transition cache fields this function touches. -/
structure EpochTransitionCache where
  currentEpoch : Nat
  balances : Option (List Nat)
  deriving DecidableEq, Repr

/-- Modelled from the spec: `increaseBalanceWithVal` (in `util`, not under
`src/`) adds the delta to the balance. -/
def increaseBalanceWithVal (balance delta : Nat) : Nat :=
  balance + delta

/-- Modelled from the spec: `decreaseBalanceWithVal` (in `util`, not under
`src/`) subtracts with saturation at zero; `Nat` subtraction is exactly
that. -/
def decreaseBalanceWithVal (balance delta : Nat) : Nat :=
  balance - delta

/-- The loop of `processRewardsAndPenalties` (lines 31–36): iterate `i`
over `rewards.length`, setting
`balances[i] := dec (inc balances[i] rewards[i]) (penalties[i] + (slashingPenalties[i] ?? 0))`.
The `?? 0` of the source applies to `slashingPenalties` only; the
theorems assume `|penalties| = |rewards| = |balances|`, the state
invariant under which the source loop is well defined. -/
def applyDeltas : List Nat → List Nat → List Nat → List Nat → List Nat
  | balances, [], _, _ => balances
  | [], _ :: _, _, _ => []
  | b :: bs, r :: rs, pens, slashs =>
    decreaseBalanceWithVal (increaseBalanceWithVal b r) (pens.headD 0 + slashs.headD 0)
      :: applyDeltas bs rs pens.tail slashs.tail

/-- Embeds `processRewardsAndPenalties`.  `getRP` stands for
`getRewardsAndPenalties` (its two fork-dependent implementations are not
under `src/`); it is a parameter ranging over all such functions. -/
def processRewardsAndPenalties
    (getRP : CachedBeaconState → EpochTransitionCache → List Nat × List Nat)
    (state : CachedBeaconState) (cache : EpochTransitionCache)
    (slashingPenalties : List Nat) : CachedBeaconState × EpochTransitionCache :=
  if cache.currentEpoch = GENESIS_EPOCH then (state, cache)
  else
    let rp := getRP state cache
    let balances := applyDeltas state.balancesList rp.1 rp.2 slashingPenalties
    ({ state with
      balancesList := balances,
      balanceOps := state.balanceOps ++ [BalOp.bulkRebuild balances] },
     { cache with balances := some balances })

end StateTransitionPkg

namespace AttestationFactory

/-! ### `packages/lodestar/src/chain/factory/attestation/index.ts` -/

open Lodestar

/-- The produced `IndexedAttestation`; `signature` is `Option` because
the source leaves it `undefined`. -/
structure IndexedAttestation where
  custodyBit0Indices : List Nat
  custodyBit1Indices : List Nat
  data : AttestationData
  signature : Option Nat
  deriving DecidableEq, Repr

/-- The `while (state.slot < slot) state.slot++` loop of
`assembleAttestation`, which advances the slot with no per-slot
processing. -/
def advanceToSlot (s : BeaconState) (slot : Nat) : BeaconState :=
  if _h : s.slot < slot then advanceToSlot { s with slot := s.slot + 1 } slot else s
termination_by slot - s.slot
decreasing_by omega

/-- Embeds `assembleAttestation`.  `aad` stands for
`assembleAttestationData` (in `./data`, not under `src/`), a pure
function of its arguments; the database handle it receives is dropped
from the model.  The mutated state is returned alongside the
attestation. -/
def assembleAttestation (config : IBeaconConfig)
    (aad : IBeaconConfig → BeaconState → BeaconBlock → Nat → AttestationData)
    (state : BeaconState) (headBlock : BeaconBlock) (slot shard : Nat) :
    BeaconState × IndexedAttestation :=
  let state := advanceToSlot state slot
  (state,
   { custodyBit0Indices := []
     custodyBit1Indices := []
     data := aad config state headBlock shard
     signature := none })

end AttestationFactory

namespace Lodestar

/-! ### Concrete fixtures used by witnesses and counterexamples -/

/-- An empty base state at slot 0. -/
def baseState : BeaconState :=
  { slot := 0, genesisTime := 0,
    currentJustifiedCheckpoint := { epoch := 0, root := 0 },
    finalizedCheckpoint := { epoch := 0, root := 0 },
    validators := [], balances := [], eth1DepositIndex := 0, eth1DepositCount := 0 }

/-- Chain-state constructor with empty stores and logs. -/
def mkChain (latest : BeaconState) (blocks : List (Root × BeaconBlock))
    (states : List (Root × BeaconState)) : ChainState :=
  { latestState := latest, dbBlocks := blocks, dbStates := states, dbBadBlocks := [],
    dbChainHeadRoot := 0, dbChainHeadStateRoot := 0, dbJustifiedBlockRoot := 0,
    dbJustifiedStateRoot := 0, dbJustifiedEpoch := 0, dbFinalizedBlockRoot := 0,
    dbFinalizedStateRoot := 0, dbFinalizedEpoch := 0, forkBlocks := [], forkVotes := [],
    forkJustified := 0, forkFinalized := 0, forkHead := 0, opPoolOps := 0, persistLog := [],
    events := [], transitionCalls := 0, aborted := false }

/-- A config with 6-second slots and 8-slot epochs. -/
def cfg8 : IBeaconConfig := { SECONDS_PER_SLOT := 6, SLOTS_PER_EPOCH := 8 }

/-- The all-zero block: its hash is 0 and its parent root is 0, so it is
its own parent in the modelled hash space. -/
def zeroBlock : BeaconBlock := { slot := 0, parentRoot := 0, stateRoot := 0, bodyTag := 0 }

/-- Post-state for the C1 witness. -/
def c1Post : BeaconState := { baseState with slot := 1 }

/-- Transition function for the C1 witness. -/
def c1Tf : TransitionFn := fun _ _ => some c1Post

/-- Block whose claimed state root (0) differs from the transitioned root. -/
def c1Block : BeaconBlock := { slot := 1, parentRoot := 0, stateRoot := 0, bodyTag := 0 }

/-- Chain for the C1 witness. -/
def c1Chain : ChainState := mkChain baseState [] []

/-- Chain for the C3 witness: the zero block is stored under key 0. -/
def c3Chain : ChainState := mkChain baseState [(0, zeroBlock)] []

/-- The bad block of the C3 witness (child of the zero block). -/
def c3Bad : BeaconBlock := { slot := 1, parentRoot := 0, stateRoot := 9, bodyTag := 5 }

/-- Transition function of the C3 witness: every transition fails. -/
def c3Tf : TransitionFn := fun _ _ => none

/-- A child of the bad block of the C3 witness. -/
def c3Child : BeaconBlock := { slot := 2, parentRoot := htrBlock c3Bad, stateRoot := 0, bodyTag := 0 }

/-- First post-state of the C4 counterexample: slot 24 (epoch 3),
finalized epoch 2 with checkpoint root 100. -/
def c4Post1 : BeaconState :=
  { baseState with slot := 24, finalizedCheckpoint := { epoch := 2, root := 100 } }

/-- Second post-state of the C4 counterexample: slot 16 (epoch 2),
finalized epoch 1 with checkpoint root 101. -/
def c4Post2 : BeaconState :=
  { baseState with slot := 16, finalizedCheckpoint := { epoch := 1, root := 101 } }

/-- Transition function of the C4 counterexample: deterministic in
`(state, block)` and monotone in the block slot, as slot-processing of a
fixed pre-state is. -/
def c4Tf : TransitionFn := fun _ b =>
  if b.bodyTag = 1 then some c4Post1 else if b.bodyTag = 2 then some c4Post2 else none

/-- First received block of the C4 counterexample (sibling of the second). -/
def c4B1 : BeaconBlock :=
  { slot := 24, parentRoot := 0, stateRoot := htrState c4Post1, bodyTag := 1 }

/-- Second received block of the C4 counterexample. -/
def c4B2 : BeaconBlock :=
  { slot := 16, parentRoot := 0, stateRoot := htrState c4Post2, bodyTag := 2 }

/-- Block stored under the finalized-checkpoint root 100. -/
def c4F1 : BeaconBlock := { slot := 16, parentRoot := 0, stateRoot := 200, bodyTag := 0 }

/-- Block stored under the finalized-checkpoint root 101. -/
def c4F2 : BeaconBlock := { slot := 8, parentRoot := 0, stateRoot := 201, bodyTag := 0 }

/-- Chain of the C4 counterexample: parent and checkpoint blocks and
their states are all in the database. -/
def c4Chain : ChainState :=
  mkChain baseState [(0, zeroBlock), (100, c4F1), (101, c4F2)]
    [(200, baseState), (201, baseState)]

/-- Chain of the C5 counterexample / witness. -/
def c5Chain : ChainState :=
  mkChain { baseState with validators := [{ effectiveBalance := 32 }], balances := [5] } [] []

/-- An attestation with aggregation bit count zero. -/
def c5Att : Attestation := { data := { beaconBlockRoot := 9, tag := 0 }, aggregationBits := [false, false] }

/-- Chain of the C6 counterexample: validator 0 has effective balance 32
but raw balance 5. -/
def c6Chain : ChainState :=
  mkChain { baseState with validators := [{ effectiveBalance := 32 }], balances := [5] } [] []

/-- An attestation by validator 0. -/
def c6Att : Attestation := { data := { beaconBlockRoot := 9, tag := 0 }, aggregationBits := [true] }

/-- Post-state of the C7 counterexample: crosses into epoch 1 and bumps
the justified epoch to 1 with a checkpoint root (77) absent from the
database, so processing fails after the block and state writes. -/
def c7Post : BeaconState :=
  { baseState with slot := 8, currentJustifiedCheckpoint := { epoch := 1, root := 77 } }

/-- Transition function of the C7 counterexample. -/
def c7Tf : TransitionFn := fun _ _ => some c7Post

/-- Received block of the C7 counterexample. -/
def c7Block : BeaconBlock :=
  { slot := 8, parentRoot := 0, stateRoot := htrState c7Post, bodyTag := 3 }

/-- Chain of the C7 counterexample. -/
def c7Chain : ChainState := mkChain baseState [(0, zeroBlock)] []

/-- Chain of the C8 counterexample: stored head 1, fork-choice head 2,
head block present with state root 7. -/
def c8Block : BeaconBlock := { slot := 1, parentRoot := 1, stateRoot := 7, bodyTag := 0 }

/-- See `c8Block`. -/
def c8Chain : ChainState :=
  { mkChain baseState [(2, c8Block)] [] with dbChainHeadRoot := 1, forkHead := 2 }

/-- Chain for the equal-head half of the C8 witness. -/
def c8EqChain : ChainState :=
  { mkChain baseState [] [] with dbChainHeadRoot := 4, forkHead := 4 }

/-- Chain for the differing-head half of the C8 witness. -/
def c8WChain : ChainState :=
  { mkChain baseState [(3, c8Block)] [] with dbChainHeadRoot := 1, forkHead := 3 }

end Lodestar

namespace StateTransitionPkg

/-- State fixture for the C2 and C9 witnesses. -/
def stFix : CachedBeaconState := { slot := 9, balancesList := [5, 4], balanceOps := [] }

/-- Deltas fixture: rewards `[3, 0]`, penalties `[1, 10]`. -/
def rpFix : CachedBeaconState → EpochTransitionCache → List Nat × List Nat :=
  fun _ _ => ([3, 0], [1, 10])

end StateTransitionPkg

/-! ## Theorems -/

namespace Lodestar

theorem htrBlock_injective : Function.Injective htrBlock := by
  intro a b h
  unfold htrBlock at h
  have h1 := (Nat.pair_eq_pair.mp h).1
  have h2 := (Nat.pair_eq_pair.mp h).2
  have h11 := (Nat.pair_eq_pair.mp h1).1
  have h12 := (Nat.pair_eq_pair.mp h1).2
  have h21 := (Nat.pair_eq_pair.mp h2).1
  have h22 := (Nat.pair_eq_pair.mp h2).2
  cases a; cases b; simp_all

theorem dbGet_cons {α : Type} (k : Root) (v : α) (l : List (Root × α)) (key : Root) :
    dbGet ((k, v) :: l) key = if key = k then some v else dbGet l key := by
  by_cases h : k = key
  · subst h; simp [dbGet]
  · simp [dbGet, List.find?]
    have : ¬ (key = k) := fun hh => h hh.symm
    simp [decide_eq_true_eq, h, this]

end Lodestar

namespace AttestationFactory

open Lodestar

theorem advanceToSlot_eq (s : BeaconState) (slot : Nat) :
    advanceToSlot s slot = { s with slot := max s.slot slot } := by
  generalize hn : slot - s.slot = n
  induction n generalizing s with
  | zero =>
    rw [advanceToSlot.eq_def]
    have h : ¬ s.slot < slot := by omega
    rw [dif_neg h]
    have hmax : max s.slot slot = s.slot := by omega
    rw [hmax]
  | succ n ih =>
    rw [advanceToSlot.eq_def]
    have h : s.slot < slot := by omega
    rw [dif_pos h]
    rw [ih { s with slot := s.slot + 1 } (by simp only; omega)]
    have hmax : max (s.slot + 1) slot = max s.slot slot := by omega
    simp only
    rw [hmax]

/-- C10: `assembleAttestation` terminates (it is a total function); the
only field of the given state it mutates is `slot`, which afterwards
equals `max (original slot) slot`, with no per-slot processing performed;
and the returned attestation has empty `custodyBit0Indices` and
`custodyBit1Indices` and an undefined (`none`) signature. -/
theorem assembleAttestation_frame (config : IBeaconConfig)
    (aad : IBeaconConfig → BeaconState → BeaconBlock → Nat → AttestationData)
    (state : BeaconState) (headBlock : BeaconBlock) (slot shard : Nat) :
    (assembleAttestation config aad state headBlock slot shard).1
        = { state with slot := max state.slot slot } ∧
    (assembleAttestation config aad state headBlock slot shard).2.custodyBit0Indices = [] ∧
    (assembleAttestation config aad state headBlock slot shard).2.custodyBit1Indices = [] ∧
    (assembleAttestation config aad state headBlock slot shard).2.signature = none := by
  refine ⟨?_, rfl, rfl, rfl⟩
  simp only [assembleAttestation]
  exact advanceToSlot_eq state slot

end AttestationFactory

namespace StateTransitionPkg

/-- C9: at the genesis epoch, `processRewardsAndPenalties` returns
immediately: the state (balances and tree-commit log included) and the
cache are entirely unchanged. -/
theorem processRewardsAndPenalties_genesis_skip
    (getRP : CachedBeaconState → EpochTransitionCache → List Nat × List Nat)
    (state : CachedBeaconState) (cache : EpochTransitionCache) (slashing : List Nat)
    (h : cache.currentEpoch = GENESIS_EPOCH) :
    processRewardsAndPenalties getRP state cache slashing = (state, cache) := by
  simp [processRewardsAndPenalties, h]

theorem processRewardsAndPenalties_genesis_skip_witness :
    processRewardsAndPenalties rpFix stFix { currentEpoch := 0, balances := none } [7]
      = (stFix, { currentEpoch := 0, balances := none }) :=
  processRewardsAndPenalties_genesis_skip rpFix stFix { currentEpoch := 0, balances := none } [7] rfl

theorem applyDeltas_getD :
    ∀ (bals rws pens sls : List Nat) (i : Nat),
      rws.length = bals.length → pens.length = rws.length → i < bals.length →
      (applyDeltas bals rws pens sls).getD i 0
        = (bals.getD i 0 + rws.getD i 0) - (pens.getD i 0 + sls.getD i 0) := by
  intro bals
  induction bals with
  | nil => intro rws pens sls i _ _ hi; exact absurd hi (by simp)
  | cons b bs ih =>
    intro rws pens sls i hlr hlp hi
    cases rws with
    | nil => simp at hlr
    | cons r rs =>
      cases pens with
      | nil => simp at hlp
      | cons p ps =>
        cases i with
        | zero =>
          simp [applyDeltas, increaseBalanceWithVal, decreaseBalanceWithVal]
          cases sls <;> simp
        | succ j =>
          simp only [applyDeltas, List.getD_cons_succ, List.tail_cons]
          have hj : j < bs.length := by simp at hi; omega
          rw [ih rs ps sls.tail j (by simp at hlr; omega) (by simp at hlp; omega) hj]
          cases sls <;> simp

/-- C2: past the genesis epoch, each validator's new balance is the old
balance plus `rewards[i]`, then minus `penalties[i] + slashingPenalties[i]`
with saturation at zero (no underflow, stated over `Int`), and the commit
is a single bulk tree rebuild appended to the balances-tree log — no
per-validator tree mutation. -/
theorem processRewardsAndPenalties_balances
    (getRP : CachedBeaconState → EpochTransitionCache → List Nat × List Nat)
    (state : CachedBeaconState) (cache : EpochTransitionCache)
    (slashing rewards penalties : List Nat) (i : Nat)
    (hg : cache.currentEpoch ≠ GENESIS_EPOCH)
    (hrp : getRP state cache = (rewards, penalties))
    (hlr : rewards.length = state.balancesList.length)
    (hlp : penalties.length = rewards.length)
    (hi : i < state.balancesList.length) :
    ((processRewardsAndPenalties getRP state cache slashing).1.balancesList.getD i 0
      = (state.balancesList.getD i 0 + rewards.getD i 0)
          - (penalties.getD i 0 + slashing.getD i 0)) ∧
    (((processRewardsAndPenalties getRP state cache slashing).1.balancesList.getD i 0 : Int)
      = max 0 ((state.balancesList.getD i 0 : Int) + (rewards.getD i 0 : Int)
          - ((penalties.getD i 0 : Int) + (slashing.getD i 0 : Int)))) ∧
    ((processRewardsAndPenalties getRP state cache slashing).1.balanceOps
      = state.balanceOps
          ++ [BalOp.bulkRebuild
                (processRewardsAndPenalties getRP state cache slashing).1.balancesList]) ∧
    ((processRewardsAndPenalties getRP state cache slashing).2.balances
      = some (processRewardsAndPenalties getRP state cache slashing).1.balancesList) := by
  have hunfold :
      processRewardsAndPenalties getRP state cache slashing
        = ({ state with
              balancesList := applyDeltas state.balancesList rewards penalties slashing,
              balanceOps := state.balanceOps
                ++ [BalOp.bulkRebuild (applyDeltas state.balancesList rewards penalties slashing)] },
           { cache with balances := some (applyDeltas state.balancesList rewards penalties slashing) }) := by
    simp [processRewardsAndPenalties, hg, hrp]
  rw [hunfold]
  have hget := applyDeltas_getD state.balancesList rewards penalties slashing i hlr hlp hi
  refine ⟨hget, ?_, rfl, rfl⟩
  simp only [hget]
  omega

theorem processRewardsAndPenalties_balances_witness :
    ((processRewardsAndPenalties rpFix stFix { currentEpoch := 3, balances := none } [0, 2]).1.balancesList.getD 1 0
      = (stFix.balancesList.getD 1 0 + [3, 0].getD 1 0) - ([1, 10].getD 1 0 + [0, 2].getD 1 0)) ∧
    (((processRewardsAndPenalties rpFix stFix { currentEpoch := 3, balances := none } [0, 2]).1.balancesList.getD 1 0 : Int)
      = max 0 ((stFix.balancesList.getD 1 0 : Int) + ([3, 0].getD 1 0 : Int)
          - (([1, 10].getD 1 0 : Int) + ([0, 2].getD 1 0 : Int)))) ∧
    ((processRewardsAndPenalties rpFix stFix { currentEpoch := 3, balances := none } [0, 2]).1.balanceOps
      = stFix.balanceOps
          ++ [BalOp.bulkRebuild
                (processRewardsAndPenalties rpFix stFix { currentEpoch := 3, balances := none } [0, 2]).1.balancesList]) ∧
    ((processRewardsAndPenalties rpFix stFix { currentEpoch := 3, balances := none } [0, 2]).2.balances
      = some (processRewardsAndPenalties rpFix stFix { currentEpoch := 3, balances := none } [0, 2]).1.balancesList) :=
  processRewardsAndPenalties_balances rpFix stFix { currentEpoch := 3, balances := none }
    [0, 2] [3, 0] [1, 10] 1 (by decide) rfl (by decide) (by decide) (by decide)

end StateTransitionPkg

namespace Lodestar

theorem runStateTransition_error_eq (config : IBeaconConfig) (tf : TransitionFn)
    (c : ChainState) (block : BeaconBlock) (e : TransitionError)
    (h : stateTransition tf c.latestState block true = Except.error e) :
    runStateTransition config tf c block =
      ({ c with
          transitionCalls := c.transitionCalls + 1,
          dbBadBlocks := htrBlock block :: c.dbBadBlocks,
          persistLog := c.persistLog ++ [PersistOp.setBadBlockRoot (htrBlock block)],
          events := c.events ++ [Event.warnBadBlock e] }, none) := by
  simp [runStateTransition, h]

/-- C1: when the state transition succeeds but the transitioned root
differs from the block's claimed `stateRoot`, `runStateTransition`
rejects the block (returns `none`) with `StateRootMismatch`, records its
root as bad, and persists neither block nor state. -/
theorem runStateTransition_stateRootMismatch (config : IBeaconConfig) (tf : TransitionFn)
    (c : ChainState) (block : BeaconBlock) (post : BeaconState)
    (hpost : tf c.latestState block = some post)
    (hmm : htrState post ≠ block.stateRoot) :
    (runStateTransition config tf c block).2 = none ∧
    (runStateTransition config tf c block).1.dbBadBlocks = htrBlock block :: c.dbBadBlocks ∧
    (runStateTransition config tf c block).1.events
      = c.events ++ [Event.warnBadBlock TransitionError.stateRootMismatch] ∧
    (runStateTransition config tf c block).1.dbBlocks = c.dbBlocks ∧
    (runStateTransition config tf c block).1.forkBlocks = c.forkBlocks ∧
    (runStateTransition config tf c block).1.persistLog
      = c.persistLog ++ [PersistOp.setBadBlockRoot (htrBlock block)] := by
  have hst : stateTransition tf c.latestState block true
      = Except.error TransitionError.stateRootMismatch := by
    simp [stateTransition, hpost, hmm]
  rw [runStateTransition_error_eq config tf c block _ hst]
  simp

theorem runStateTransition_stateRootMismatch_witness :
    (runStateTransition cfg8 c1Tf c1Chain c1Block).2 = none ∧
    (runStateTransition cfg8 c1Tf c1Chain c1Block).1.dbBadBlocks
      = htrBlock c1Block :: c1Chain.dbBadBlocks ∧
    (runStateTransition cfg8 c1Tf c1Chain c1Block).1.events
      = c1Chain.events ++ [Event.warnBadBlock TransitionError.stateRootMismatch] ∧
    (runStateTransition cfg8 c1Tf c1Chain c1Block).1.dbBlocks = c1Chain.dbBlocks ∧
    (runStateTransition cfg8 c1Tf c1Chain c1Block).1.forkBlocks = c1Chain.forkBlocks ∧
    (runStateTransition cfg8 c1Tf c1Chain c1Block).1.persistLog
      = c1Chain.persistLog ++ [PersistOp.setBadBlockRoot (htrBlock c1Block)] :=
  runStateTransition_stateRootMismatch cfg8 c1Tf c1Chain c1Block c1Post rfl (by decide)

theorem getD_false_of_all_false (l : List Bool) (h : ∀ b ∈ l, b = false) (i : Nat) :
    l.getD i false = false := by
  induction l generalizing i with
  | nil => simp
  | cons a as ih =>
    cases i with
    | zero => simpa using h a (by simp)
    | succ j =>
      simp only [List.getD_cons_succ]
      exact ih (fun b hb => h b (by simp [hb])) j

/-- C5 (amended): `receiveAttestation` performs no aggregation-bit
cardinality verification and has no rejection path; an attestation whose
aggregation bits are all clear contributes no vote to fork-choice but is
still fully processed, emitting `processedAttestation`. -/
theorem receiveAttestation_zero_bits (config : IBeaconConfig) (c : ChainState)
    (a : Attestation) (hz : ∀ b ∈ a.aggregationBits, b = false) :
    (receiveAttestation config c a).forkVotes = c.forkVotes ∧
    (receiveAttestation config c a).events = c.events ++ [Event.processedAttestation] := by
  have hempty : getAttestingIndices config c.latestState a.data a.aggregationBits = [] := by
    unfold getAttestingIndices
    rw [List.filter_eq_nil_iff.mpr ?_]
    · rfl
    · intro p _
      simpa using getD_false_of_all_false a.aggregationBits hz p.1
  simp [receiveAttestation, hempty]

theorem receiveAttestation_zero_bits_witness :
    (receiveAttestation cfg8 c5Chain c5Att).forkVotes = c5Chain.forkVotes ∧
    (receiveAttestation cfg8 c5Chain c5Att).events
      = c5Chain.events ++ [Event.processedAttestation] :=
  receiveAttestation_zero_bits cfg8 c5Chain c5Att (by decide)

/-- C5 counterexample: an attestation with aggregation bit count zero is
not rejected — `receiveAttestation` runs to completion and emits
`processedAttestation`, mutating nothing but the event log. -/
theorem receiveAttestation_zero_bits_processed :
    receiveAttestation cfg8 c5Chain c5Att
      = { c5Chain with events := c5Chain.events ++ [Event.processedAttestation] } := by
  decide

theorem zip_map_self {β γ : Type} (vs : List Nat) (f : Nat → β) (g : Nat × β → γ) :
    (vs.zip (vs.map f)).map g = vs.map (fun i => g (i, f i)) := by
  induction vs with
  | nil => rfl
  | cons v tl ih => simp [ih]

/-- C6 (amended): the weight fed into fork-choice for each attesting
validator is that validator's raw entry of `state.balances`, not the
validator's effective balance. -/
theorem receiveAttestation_weight_raw_balance (config : IBeaconConfig) (c : ChainState)
    (a : Attestation) :
    (receiveAttestation config c a).forkVotes
      = c.forkVotes
        ++ (getAttestingIndices config c.latestState a.data a.aggregationBits).map
            (fun i => (a.data.beaconBlockRoot, i, c.latestState.balances.getD i 0)) := by
  unfold receiveAttestation
  simp only
  rw [zip_map_self]

/-- C6 counterexample: validator 0 has effective balance 32 but raw
balance 5; the vote fed into fork-choice carries weight 5. -/
theorem receiveAttestation_uses_raw_not_effective :
    (receiveAttestation cfg8 c6Chain c6Att).forkVotes = [(9, 0, 5)] ∧
    (c6Chain.latestState.validators.getD 0 { effectiveBalance := 0 }).effectiveBalance = 32 ∧
    (5 : Nat) ≠ 32 := by
  decide

/-- C8 (amended): when the selected head equals the stored head,
`applyForkChoiceRule` mutates nothing and emits nothing; when it differs
(and the head block is in the store), the source calls
`setChainHeadRoots` with the previous head root — not the new head root —
together with the new head block's state root, and emits no event. -/
theorem applyForkChoiceRule_behavior (c : ChainState) :
    (c.dbChainHeadRoot = c.forkHead → applyForkChoiceRule c = c) ∧
    (∀ b : BeaconBlock, c.dbChainHeadRoot ≠ c.forkHead →
      dbGet c.dbBlocks c.forkHead = some b →
      (applyForkChoiceRule c).dbChainHeadRoot = c.dbChainHeadRoot ∧
      (applyForkChoiceRule c).dbChainHeadStateRoot = b.stateRoot ∧
      (applyForkChoiceRule c).events = c.events ∧
      (applyForkChoiceRule c).persistLog
        = c.persistLog ++ [PersistOp.setChainHeadRoots c.dbChainHeadRoot b.stateRoot]) := by
  constructor
  · intro h; simp [applyForkChoiceRule, h]
  · intro b hne hb; simp [applyForkChoiceRule, hne, hb]

theorem applyForkChoiceRule_behavior_witness :
    (applyForkChoiceRule c8EqChain = c8EqChain) ∧
    ((applyForkChoiceRule c8WChain).dbChainHeadRoot = c8WChain.dbChainHeadRoot ∧
     (applyForkChoiceRule c8WChain).dbChainHeadStateRoot = c8Block.stateRoot ∧
     (applyForkChoiceRule c8WChain).events = c8WChain.events ∧
     (applyForkChoiceRule c8WChain).persistLog
       = c8WChain.persistLog
         ++ [PersistOp.setChainHeadRoots c8WChain.dbChainHeadRoot c8Block.stateRoot]) :=
  ⟨(applyForkChoiceRule_behavior c8EqChain).1 rfl,
   (applyForkChoiceRule_behavior c8WChain).2 c8Block (by decide) rfl⟩

/-- C8 counterexample: with stored head 1 and selected head 2, the
orchestrator neither updates the stored head root to the new head (it
stays 1) nor emits any event. -/
theorem applyForkChoiceRule_no_update_no_event :
    c8Chain.forkHead = 2 ∧
    c8Chain.dbChainHeadRoot ≠ c8Chain.forkHead ∧
    (applyForkChoiceRule c8Chain).dbChainHeadRoot = 1 ∧
    (applyForkChoiceRule c8Chain).dbChainHeadRoot ≠ c8Chain.forkHead ∧
    (applyForkChoiceRule c8Chain).events = c8Chain.events := by
  decide

theorem runJustifiedUpdate_frame (c : ChainState) (br : Root) (ns : BeaconState) (pj : Nat) :
    ((runJustifiedUpdate c br ns pj).1).latestState = c.latestState ∧
    ((runJustifiedUpdate c br ns pj).1).dbBlocks = c.dbBlocks ∧
    ((runJustifiedUpdate c br ns pj).1).dbStates = c.dbStates ∧
    ((runJustifiedUpdate c br ns pj).1).dbBadBlocks = c.dbBadBlocks ∧
    ((runJustifiedUpdate c br ns pj).1).dbFinalizedBlockRoot = c.dbFinalizedBlockRoot ∧
    ((runJustifiedUpdate c br ns pj).1).dbFinalizedStateRoot = c.dbFinalizedStateRoot ∧
    ((runJustifiedUpdate c br ns pj).1).dbFinalizedEpoch = c.dbFinalizedEpoch ∧
    ((runJustifiedUpdate c br ns pj).1).forkFinalized = c.forkFinalized := by
  unfold runJustifiedUpdate
  by_cases h : pj < ns.currentJustifiedCheckpoint.epoch
  · rw [if_pos h]
    rcases hb : dbGet c.dbBlocks ns.currentJustifiedCheckpoint.root with _ | jb
    · simp [hb]
    · rcases hs : dbGet c.dbStates jb.stateRoot with _ | js <;> simp [hb, hs]
  · rw [if_neg h]
    simp

theorem runFinalizedUpdate_frame (c : ChainState) (br : Root) (ns : BeaconState) (pf : Nat) :
    ((runFinalizedUpdate c br ns pf).1).latestState = c.latestState ∧
    ((runFinalizedUpdate c br ns pf).1).dbBlocks = c.dbBlocks ∧
    ((runFinalizedUpdate c br ns pf).1).dbStates = c.dbStates ∧
    ((runFinalizedUpdate c br ns pf).1).dbBadBlocks = c.dbBadBlocks := by
  unfold runFinalizedUpdate
  by_cases h : pf < ns.finalizedCheckpoint.epoch
  · rw [if_pos h]
    rcases hb : dbGet c.dbBlocks ns.finalizedCheckpoint.root with _ | fb
    · simp [hb]
    · rcases hs : dbGet c.dbStates fb.stateRoot with _ | fs <;> simp [hb, hs]
  · rw [if_neg h]
    simp

theorem runFinalizedUpdate_no_change (c : ChainState) (br : Root) (ns : BeaconState) (pf : Nat)
    (h : ¬ pf < ns.finalizedCheckpoint.epoch) :
    runFinalizedUpdate c br ns pf = (c, true) := by
  simp [runFinalizedUpdate, h]

theorem runStateTransition_ok_eq (config : IBeaconConfig) (tf : TransitionFn)
    (c : ChainState) (block : BeaconBlock) (post : BeaconState)
    (hst : stateTransition tf c.latestState block true = Except.ok post) :
    runStateTransition config tf c block =
      (if computeEpochOfSlot config c.latestState.slot < computeEpochOfSlot config post.slot then
        match runJustifiedUpdate (okBase c block post) (htrBlock block) post
            c.latestState.currentJustifiedCheckpoint.epoch with
        | (c3, false) => (c3, none)
        | (c3, true) =>
          match runFinalizedUpdate c3 (htrBlock block) post
              c.latestState.finalizedCheckpoint.epoch with
          | (c4, false) => (c4, none)
          | (c4, true) => (c4, some post)
      else (okBase c block post, some post)) := by
  simp [runStateTransition, hst]

/-- C7 (amended): when the state transition itself fails, nothing of
block / state / checkpoint marks is persisted and fork-choice is
untouched — only the bad-block root is written. -/
theorem runStateTransition_failure_frame (config : IBeaconConfig) (tf : TransitionFn)
    (c : ChainState) (block : BeaconBlock)
    (hfail : tf c.latestState block = none) :
    (runStateTransition config tf c block).2 = none ∧
    (runStateTransition config tf c block).1.persistLog
      = c.persistLog ++ [PersistOp.setBadBlockRoot (htrBlock block)] ∧
    (runStateTransition config tf c block).1.dbBlocks = c.dbBlocks ∧
    (runStateTransition config tf c block).1.dbStates = c.dbStates ∧
    (runStateTransition config tf c block).1.forkBlocks = c.forkBlocks ∧
    (runStateTransition config tf c block).1.forkVotes = c.forkVotes ∧
    (runStateTransition config tf c block).1.forkJustified = c.forkJustified ∧
    (runStateTransition config tf c block).1.forkFinalized = c.forkFinalized ∧
    (runStateTransition config tf c block).1.dbBadBlocks = htrBlock block :: c.dbBadBlocks := by
  have hst : stateTransition tf c.latestState block true
      = Except.error TransitionError.transitionFailed := by
    simp [stateTransition, hfail]
  rw [runStateTransition_error_eq config tf c block _ hst]
  simp

theorem runStateTransition_failure_frame_witness :
    (runStateTransition cfg8 c3Tf c7Chain c7Block).2 = none ∧
    (runStateTransition cfg8 c3Tf c7Chain c7Block).1.persistLog
      = c7Chain.persistLog ++ [PersistOp.setBadBlockRoot (htrBlock c7Block)] ∧
    (runStateTransition cfg8 c3Tf c7Chain c7Block).1.dbBlocks = c7Chain.dbBlocks ∧
    (runStateTransition cfg8 c3Tf c7Chain c7Block).1.dbStates = c7Chain.dbStates ∧
    (runStateTransition cfg8 c3Tf c7Chain c7Block).1.forkBlocks = c7Chain.forkBlocks ∧
    (runStateTransition cfg8 c3Tf c7Chain c7Block).1.forkVotes = c7Chain.forkVotes ∧
    (runStateTransition cfg8 c3Tf c7Chain c7Block).1.forkJustified = c7Chain.forkJustified ∧
    (runStateTransition cfg8 c3Tf c7Chain c7Block).1.forkFinalized = c7Chain.forkFinalized ∧
    (runStateTransition cfg8 c3Tf c7Chain c7Block).1.dbBadBlocks
      = htrBlock c7Block :: c7Chain.dbBadBlocks :=
  runStateTransition_failure_frame cfg8 c3Tf c7Chain c7Block rfl

/-- C7 counterexample: a block whose processing fails after the state
transition (here: the newly justified checkpoint's block is missing from
the database) still leaves the block and post-state durably written,
with no checkpoint marks — the persistence is not an atomic
all-or-nothing batch, and the individual writes are separate operations
rather than one batch. -/
theorem receiveBlock_partial_persist_on_failure :
    ((receiveBlock cfg8 c7Tf c7Chain c7Block 1000).2 = ReceiveOutcome.errored) ∧
    ((receiveBlock cfg8 c7Tf c7Chain c7Block 1000).1.aborted = true) ∧
    ((receiveBlock cfg8 c7Tf c7Chain c7Block 1000).1.persistLog
      = [PersistOp.setBlock (htrBlock c7Block), PersistOp.setState c7Block.stateRoot,
         PersistOp.setMerkleTree 0]) := by
  decide

/-- C4 (amended): `runStateTransition` touches the finalized records (db
finalized block / state roots, the recorded finalized epoch, and the
fork-choice finalized root) only when the transition succeeded, an epoch
boundary was crossed, and the post-state finalized epoch strictly
exceeds the pre-state (`latestState`) finalized epoch.  Because the
comparison is against `latestState` — which block processing never
re-assigns — and not against the last recorded epoch, this guard does
not make the recorded epoch monotone across a sequence of blocks. -/
theorem runStateTransition_finalized_guard (config : IBeaconConfig) (tf : TransitionFn)
    (c : ChainState) (block : BeaconBlock)
    (hch : (runStateTransition config tf c block).1.dbFinalizedEpoch ≠ c.dbFinalizedEpoch ∨
           (runStateTransition config tf c block).1.dbFinalizedBlockRoot ≠ c.dbFinalizedBlockRoot ∨
           (runStateTransition config tf c block).1.dbFinalizedStateRoot ≠ c.dbFinalizedStateRoot ∨
           (runStateTransition config tf c block).1.forkFinalized ≠ c.forkFinalized) :
    ∃ post, tf c.latestState block = some post ∧
      c.latestState.finalizedCheckpoint.epoch < post.finalizedCheckpoint.epoch ∧
      computeEpochOfSlot config c.latestState.slot < computeEpochOfSlot config post.slot := by
  rcases htf : tf c.latestState block with _ | post
  · exfalso
    have hst : stateTransition tf c.latestState block true
        = Except.error TransitionError.transitionFailed := by
      simp [stateTransition, htf]
    rw [runStateTransition_error_eq config tf c block _ hst] at hch
    simp at hch
  · by_cases hroot : htrState post = block.stateRoot
    · have hst : stateTransition tf c.latestState block true = Except.ok post := by
        simp [stateTransition, htf, hroot]
      rw [runStateTransition_ok_eq config tf c block post hst] at hch
      by_cases hcross :
          computeEpochOfSlot config c.latestState.slot < computeEpochOfSlot config post.slot
      · rw [if_pos hcross] at hch
        rcases hju : runJustifiedUpdate (okBase c block post) (htrBlock block) post
            c.latestState.currentJustifiedCheckpoint.epoch with ⟨c3, b3⟩
        have hjf := runJustifiedUpdate_frame (okBase c block post) (htrBlock block) post
          c.latestState.currentJustifiedCheckpoint.epoch
        rw [hju] at hjf hch
        obtain ⟨-, -, -, -, h5, h6, h7, h8⟩ := hjf
        cases b3
        · exfalso
          dsimp only at hch h5 h6 h7 h8
          simp only [okBase] at h5 h6 h7 h8
          simp [h5, h6, h7, h8] at hch
        · by_cases hpf :
              c.latestState.finalizedCheckpoint.epoch < post.finalizedCheckpoint.epoch
          · exact ⟨post, rfl, hpf, hcross⟩
          · exfalso
            dsimp only at hch h5 h6 h7 h8
            rw [runFinalizedUpdate_no_change c3 (htrBlock block) post
              c.latestState.finalizedCheckpoint.epoch hpf] at hch
            dsimp only at hch
            simp only [okBase] at h5 h6 h7 h8
            simp [h5, h6, h7, h8] at hch
      · exfalso
        rw [if_neg hcross] at hch
        simp [okBase] at hch
    · exfalso
      have hst : stateTransition tf c.latestState block true
          = Except.error TransitionError.stateRootMismatch := by
        simp [stateTransition, htf, hroot]
      rw [runStateTransition_error_eq config tf c block _ hst] at hch
      simp at hch

theorem runStateTransition_finalized_guard_witness :
    ∃ post, c4Tf c4Chain.latestState c4B1 = some post ∧
      c4Chain.latestState.finalizedCheckpoint.epoch < post.finalizedCheckpoint.epoch ∧
      computeEpochOfSlot cfg8 c4Chain.latestState.slot < computeEpochOfSlot cfg8 post.slot :=
  runStateTransition_finalized_guard cfg8 c4Tf c4Chain c4B1 (Or.inl (by decide))

/-- C4 counterexample: the recorded finalized epoch is not monotone.
Two sibling blocks are received from the same (never re-assigned)
`latestState`; the first records finalized epoch 2, the second — valid,
and passing the guard because the comparison is against the stale
pre-state epoch 0 — overwrites it with epoch 1. -/
theorem receiveBlock_finalized_epoch_not_monotone :
    ((receiveBlock cfg8 c4Tf c4Chain c4B1 100000).1.dbFinalizedEpoch = 2) ∧
    ((receiveBlock cfg8 c4Tf
        (receiveBlock cfg8 c4Tf c4Chain c4B1 100000).1 c4B2 100000).1.dbFinalizedEpoch = 1) := by
  decide

theorem desc_parent_none (tf : TransitionFn) (B : BeaconBlock) (c : ChainState)
    (hInv : BadBlockInv tf B c) (C : BeaconBlock) (hd : DescOf B C) :
    dbGet c.dbBlocks C.parentRoot = none := by
  cases hd with
  | child _ hp => rw [hp]; exact hInv.2.1
  | step D _ hD hp => rw [hp]; exact hInv.2.2 D hD

theorem isValidBlock_no_parent (config : IBeaconConfig) (s : BeaconState)
    (db : List (Root × BeaconBlock)) (block : BeaconBlock) (now : Nat)
    (h : dbGet db block.parentRoot = none) :
    isValidBlock config s db block now = false := by
  simp [isValidBlock, h]

theorem not_descOf_self_parent (B G : BeaconBlock) (hG : G.parentRoot = htrBlock G)
    (hne : htrBlock B ≠ htrBlock G) : ¬ DescOf B G := by
  intro hd
  have key : ∀ C, DescOf B C → C = G → False := by
    intro C hC
    induction hC with
    | child C h =>
      intro hCG
      rw [hCG, hG] at h
      exact hne h.symm
    | step D C hD h ih =>
      intro hCG
      rw [hCG, hG] at h
      exact ih (htrBlock_injective h.symm)
  exact key G hd rfl

theorem runStateTransition_cases (config : IBeaconConfig) (tf : TransitionFn)
    (c : ChainState) (block : BeaconBlock) :
    ((runStateTransition config tf c block).1).latestState = c.latestState ∧
    (((runStateTransition config tf c block).1).dbBlocks = c.dbBlocks ∨
      (∃ post, tf c.latestState block = some post ∧
        ((runStateTransition config tf c block).1).dbBlocks
          = (htrBlock block, block) :: c.dbBlocks)) := by
  rcases htf : tf c.latestState block with _ | post
  · have hst : stateTransition tf c.latestState block true
        = Except.error TransitionError.transitionFailed := by
      simp [stateTransition, htf]
    rw [runStateTransition_error_eq config tf c block _ hst]
    exact ⟨rfl, Or.inl rfl⟩
  · by_cases hroot : htrState post = block.stateRoot
    · have hst : stateTransition tf c.latestState block true = Except.ok post := by
        simp [stateTransition, htf, hroot]
      rw [runStateTransition_ok_eq config tf c block post hst]
      by_cases hcross :
          computeEpochOfSlot config c.latestState.slot < computeEpochOfSlot config post.slot
      · rw [if_pos hcross]
        rcases hju : runJustifiedUpdate (okBase c block post) (htrBlock block) post
            c.latestState.currentJustifiedCheckpoint.epoch with ⟨c3, b3⟩
        have hjf := runJustifiedUpdate_frame (okBase c block post) (htrBlock block) post
          c.latestState.currentJustifiedCheckpoint.epoch
        rw [hju] at hjf
        obtain ⟨j1, j2, -, -, -, -, -, -⟩ := hjf
        dsimp only at j1 j2
        try rw [hju]
        cases b3
        · dsimp only
          refine ⟨by rw [j1]; simp [okBase], Or.inr ⟨post, rfl, by rw [j2]; simp [okBase]⟩⟩
        · rcases hfu : runFinalizedUpdate c3 (htrBlock block) post
              c.latestState.finalizedCheckpoint.epoch with ⟨c4, b4⟩
          have hff := runFinalizedUpdate_frame c3 (htrBlock block) post
            c.latestState.finalizedCheckpoint.epoch
          rw [hfu] at hff
          obtain ⟨f1, f2, -, -⟩ := hff
          dsimp only at f1 f2
          simp only [hfu]
          cases b4 <;>
            exact ⟨by dsimp only; rw [f1, j1]; simp [okBase],
              Or.inr ⟨post, rfl, by dsimp only; rw [f2, j2]; simp [okBase]⟩⟩
      · rw [if_neg hcross]
        exact ⟨by simp [okBase], Or.inr ⟨post, rfl, by simp [okBase]⟩⟩
    · have hst : stateTransition tf c.latestState block true
          = Except.error TransitionError.stateRootMismatch := by
        simp [stateTransition, htf, hroot]
      rw [runStateTransition_error_eq config tf c block _ hst]
      exact ⟨rfl, Or.inl rfl⟩

theorem receiveBlock_cases (config : IBeaconConfig) (tf : TransitionFn)
    (c : ChainState) (block : BeaconBlock) (now : Nat) :
    ((receiveBlock config tf c block now).1).latestState = c.latestState ∧
    (((receiveBlock config tf c block now).1).dbBlocks = c.dbBlocks ∨
      (isValidBlock config c.latestState c.dbBlocks block now = true ∧
       ∃ post, tf c.latestState block = some post ∧
        ((receiveBlock config tf c block now).1).dbBlocks
          = (htrBlock block, block) :: c.dbBlocks)) := by
  obtain ⟨hls, hdb⟩ := runStateTransition_cases config tf c block
  by_cases hv : isValidBlock config c.latestState c.dbBlocks block now = true
  · simp only [receiveBlock]
    rw [if_pos hv]
    by_cases hab : ((runStateTransition config tf c block).1).aborted = true
    · rw [if_pos hab]
      refine ⟨hls, ?_⟩
      rcases hdb with hdb | ⟨post, hpost, hdb⟩
      · exact Or.inl hdb
      · exact Or.inr ⟨hv, post, hpost, hdb⟩
    · rw [if_neg hab]
      refine ⟨hls, ?_⟩
      rcases hdb with hdb | ⟨post, hpost, hdb⟩
      · exact Or.inl hdb
      · exact Or.inr ⟨hv, post, hpost, hdb⟩
  · simp only [receiveBlock]
    rw [if_neg hv]
    exact ⟨rfl, Or.inl rfl⟩

/-- C3: when the state transition of a valid received block fails, the
chain records that block's root in the bad-blocks set without storing
the block; every block descending from the bad block is rejected by the
`receiveBlock` assertion without its state transition being executed and
without any mutation; and both facts are preserved by processing any
further blocks (`BadBlockInv` is an invariant), so every future
descendant stays rejected. -/
theorem receiveBlock_badBlock_policy (config : IBeaconConfig) (tf : TransitionFn)
    (B : BeaconBlock) :
    (∀ c now, BadBlockInv tf B c →
      isValidBlock config c.latestState c.dbBlocks B now = true →
      htrBlock B ∈ ((receiveBlock config tf c B now).1).dbBadBlocks ∧
      ((receiveBlock config tf c B now).1).dbBlocks = c.dbBlocks) ∧
    (∀ c now C, BadBlockInv tf B c → DescOf B C →
      (receiveBlock config tf c C now).2 = ReceiveOutcome.assertionFailed ∧
      (receiveBlock config tf c C now).1 = c) ∧
    (∀ c now X, BadBlockInv tf B c → BadBlockInv tf B ((receiveBlock config tf c X now).1)) := by
  refine ⟨?part1, ?part2, ?part3⟩
  case part1 =>
    intro c now hInv hValid
    have herr : stateTransition tf c.latestState B true
        = Except.error TransitionError.transitionFailed := by
      simp [stateTransition, hInv.1]
    have heq := runStateTransition_error_eq config tf c B _ herr
    constructor
    · simp only [receiveBlock]
      rw [if_pos hValid, heq]
      by_cases hab : c.aborted = true <;> simp [hab]
    · simp only [receiveBlock]
      rw [if_pos hValid, heq]
      by_cases hab : c.aborted = true <;> simp [hab]
  case part2 =>
    intro c now C hInv hdC
    have hnone : dbGet c.dbBlocks C.parentRoot = none := desc_parent_none tf B c hInv C hdC
    have hval := isValidBlock_no_parent config c.latestState c.dbBlocks C now hnone
    constructor <;> simp [receiveBlock, hval]
  case part3 =>
    intro c now X hInv
    obtain ⟨hfail, hBnone, hdesc⟩ := hInv
    obtain ⟨hls, hdb⟩ := receiveBlock_cases config tf c X now
    rcases hdb with hdb | ⟨hv, post, hpost, hdb⟩
    · exact ⟨by rw [hls]; exact hfail, by rw [hdb]; exact hBnone,
        fun C hC => by rw [hdb]; exact hdesc C hC⟩
    · have hXB : X ≠ B := by
        rintro rfl
        rw [hfail] at hpost
        exact Option.noConfusion hpost
      have hXD : ¬ DescOf B X := by
        intro hdX
        have h1 : dbGet c.dbBlocks X.parentRoot = none := by
          cases hdX with
          | child _ hp => rw [hp]; exact hBnone
          | step D _ hD hp => rw [hp]; exact hdesc D hD
        have h2 := isValidBlock_no_parent config c.latestState c.dbBlocks X now h1
        simp [h2] at hv
      refine ⟨by rw [hls]; exact hfail, ?_, ?_⟩
      · rw [hdb, dbGet_cons]
        rw [if_neg (fun h => hXB (htrBlock_injective h).symm)]
        exact hBnone
      · intro C hC
        rw [hdb, dbGet_cons]
        rw [if_neg (fun h => hXD (by
          have hCX : C = X := htrBlock_injective h
          rw [← hCX]
          exact hC))]
        exact hdesc C hC

theorem c3ChainInv : BadBlockInv c3Tf c3Bad c3Chain := by
  refine ⟨rfl, by decide, ?_⟩
  intro C hC
  by_cases h : htrBlock C = 0
  · exfalso
    have hz : htrBlock zeroBlock = 0 := by decide
    have hCz : C = zeroBlock := htrBlock_injective (h.trans hz.symm)
    exact not_descOf_self_parent c3Bad zeroBlock (by decide) (by decide) (hCz ▸ hC)
  · have hdb : c3Chain.dbBlocks = [(0, zeroBlock)] := rfl
    rw [hdb, dbGet_cons, if_neg h]
    rfl

theorem receiveBlock_badBlock_policy_witness :
    (htrBlock c3Bad ∈ ((receiveBlock cfg8 c3Tf c3Chain c3Bad 1000).1).dbBadBlocks) ∧
    ((receiveBlock cfg8 c3Tf c3Chain c3Child 1000).2 = ReceiveOutcome.assertionFailed) ∧
    ((receiveBlock cfg8 c3Tf c3Chain c3Child 1000).1 = c3Chain) := by
  have h := receiveBlock_badBlock_policy cfg8 c3Tf c3Bad
  have h2 := h.2.1 c3Chain 1000 c3Child c3ChainInv (DescOf.child c3Child rfl)
  exact ⟨(h.1 c3Chain 1000 c3ChainInv (by decide)).1, h2.1, h2.2⟩

end Lodestar
